import Mathlib

/-!
# ESP32 Pinhole Camera firmware — shallow embedding

A shallow embedding of `src/main.cpp` of the ESP32-Pinhole-Camera firmware,
together with theorems settling the specification claims about it.

The firmware is single-threaded: `setup()` runs once, then `loop()` runs
repeatedly.  We model one call of `loop()` as a pure step function from an
environment (what the hardware collaborators return during that iteration)
and a device state to a new device state plus a trace of observable events.
Machine integers are modelled as `Nat` with explicit reduction modulo the
word size at the points where the C code can overflow: the image counter is
a `uint16_t` (`% 65536`), and `millis()` arithmetic is `unsigned long`
(`% 2^32`).
-/

namespace PinholeCam

/-! ## Compile-time constants (`#define`s in main.cpp) -/

def IC_ADDR : Nat := 0
def FLASH_MILLIS : Nat := 200
def FAIL_MILLIS : Nat := 1000
def WAVE_FLASH_COUNT : Nat := 5
def SNAP_FLASH_COUNT : Nat := 1
def CAMI_FLASH_COUNT : Nat := 2
def SDMI_FLASH_COUNT : Nat := 3
def SDCI_FLASH_COUNT : Nat := 4
def AWAKE_MILLIS : Nat := 300000

/-- `uint16_t` modulus. -/
def U16 : Nat := 65536

/-- `unsigned long` (32-bit on ESP32) modulus. -/
def U32 : Nat := 4294967296

/-! ## Indicator signaler: `flashBuiltinLed`

The LED-level behaviour is a trace of actions on the (active-low) built-in
LED pin.  `digitalWrite(LED_BUILTIN, LOW)` turns the light on,
`digitalWrite(LED_BUILTIN, HIGH)` turns it off, and `delay(ms)` blocks. -/

inductive LedAction where
  | ledOn : LedAction
  | ledOff : LedAction
  | wait (ms : Nat) : LedAction
deriving DecidableEq, Repr

/-- Body of one iteration `i` of the `for` loop in `flashBuiltinLed`:
drive the LED low (on), delay `flashLen`, drive it high (off), and delay
`flashLen` again unless this was the last iteration. -/
def flashIter (flashCount flashLen i : Nat) : List LedAction :=
  [LedAction.ledOn, LedAction.wait flashLen, LedAction.ledOff]
    ++ (if i + 1 < flashCount then [LedAction.wait flashLen] else [])

/-- `flashBuiltinLed(flashCount, flashLen)`: the `for (i = 0; i < flashCount; i++)`
loop, as the concatenation of its iteration bodies. -/
def flashBuiltinLed (flashCount flashLen : Nat) : List LedAction :=
  (List.range flashCount).flatMap (flashIter flashCount flashLen)

/-- `flashBuiltinLed()` with both defaulted parameters
(`flashCount = WAVE_FLASH_COUNT`, `flashLen = FLASH_MILLIS`). -/
def flashBuiltinLedDefault : List LedAction :=
  flashBuiltinLed WAVE_FLASH_COUNT FLASH_MILLIS

/-! ## File names

`String path = "/Image" + String(++imageCtr) + ".jpg";` — the Arduino
`String(uint16_t)` constructor renders the value in decimal with no leading
zeros.  We model that rendering digit by digit (least-significant first,
fuel-structured so it evaluates by kernel reduction), reversed and mapped
to ASCII digit characters. -/

/-- Base-10 digits of `n`, least-significant first, computed with `fuel`
recursion steps; `fuel ≥ n` yields all digits (`[]` for 0). -/
def decDigitsRev (fuel n : Nat) : List Nat :=
  match fuel with
  | 0 => []
  | fuel + 1 => if n = 0 then [] else n % 10 :: decDigitsRev fuel (n / 10)

/-- Reassemble a little-endian base-10 digit list into a number. -/
def ofDecDigits : List Nat → Nat
  | [] => 0
  | d :: ds => d + 10 * ofDecDigits ds

/-- Decimal rendering of a natural number, as produced by Arduino
`String(n)`: most-significant digit first, no leading zeros, `"0"` for 0. -/
def decimalStr (n : Nat) : String :=
  if n = 0 then "0"
  else String.mk (((decDigitsRev n n).reverse).map Nat.digitChar)

/-- The image file path derived from counter value `n`: `"/Image<n>.jpg"`. -/
def imagePath (n : Nat) : String :=
  "/Image" ++ decimalStr n ++ ".jpg"

/-! ## Device state and loop events -/

/-- The firmware's mutable state between `loop()` iterations:
the globals `imageCtr` (in-memory counter, `uint16_t`), the persisted
EEPROM counter value, the `static` local `clickedMillis`, the files the
firmware has created on the SD card (in creation order), and whether
`esp_deep_sleep_start()` has been reached (from which control never
returns). -/
structure DeviceState where
  imageCtr : Nat
  eeprom : Nat
  clickedMillis : Nat
  files : List String
  asleep : Bool
deriving DecidableEq, Repr

/-- Observable events of one `loop()` iteration, in program order. -/
inductive Ev where
  | fbGet : Ev
  | fbReturn : Ev
  | fileOpen (path : String) : Ev
  | fileWrite (len : Nat) : Ev
  | fileClose : Ev
  | eepromWrite (v : Nat) : Ev
  | eepromCommit : Ev
  | eepromEnd : Ev
  | flash (count : Nat) : Ev
  | deepSleep : Ev
deriving DecidableEq, Repr

/-- What the hardware collaborators do during one `loop()` iteration:
whether `shutter.clicked()` reports an activation, whether
`esp_camera_fb_get()` returns a frame (vs `NULL`), the frame's byte length,
whether `SD_MMC.open(path, FILE_WRITE)` succeeds, the value of `millis()`
at the click test (`tClick`) and at the idle-timeout test (`tIdle`). -/
structure LoopEnv where
  clicked : Bool
  fbAvail : Bool
  fbLen : Nat
  fileOk : Bool
  tClick : Nat
  tIdle : Nat
deriving DecidableEq, Repr

/-- The capture branch of `loop()` (the body of `if (shutter.clicked())`),
run only when `env.clicked`.  Returns the new state, the events emitted,
and whether the branch executed `return` (skipping the idle check). -/
def captureStep (env : LoopEnv) (s : DeviceState) :
    DeviceState × List Ev × Bool :=
  let s := { s with clickedMillis := env.tClick }
  if env.fbAvail then
    let ctr := (s.imageCtr + 1) % U16
    let path := imagePath ctr
    let s := { s with imageCtr := ctr }
    if env.fileOk then
      ({ s with files := s.files ++ [path], eeprom := ctr },
       [Ev.fbGet, Ev.fileOpen path, Ev.fileWrite env.fbLen,
        Ev.eepromWrite ctr, Ev.eepromCommit, Ev.flash SNAP_FLASH_COUNT,
        Ev.fileClose, Ev.fbReturn],
       false)
    else
      -- `if(!file){ ...; return; }` — note: no esp_camera_fb_return here.
      (s, [Ev.fbGet], true)
  else
    -- `if(!fb) { ...; return; }`
    (s, [], true)

/-- One call of `loop()`.  If the device has already entered deep sleep,
control never comes back, so the step is the identity with no events. -/
def loopStep (env : LoopEnv) (s : DeviceState) : DeviceState × List Ev :=
  if s.asleep then (s, [])
  else
    let (s1, evs1, returned) :=
      if env.clicked then captureStep env s else (s, [], false)
    if returned then (s1, evs1)
    else if (env.tIdle - s1.clickedMillis) % U32 > AWAKE_MILLIS then
      ({ s1 with asleep := true },
       evs1 ++ [Ev.eepromEnd, Ev.flash WAVE_FLASH_COUNT, Ev.deepSleep])
    else (s1, evs1)

/-- Run a sequence of `loop()` iterations, accumulating the event trace. -/
def runSteps (envs : List LoopEnv) (s : DeviceState) :
    DeviceState × List Ev :=
  match envs with
  | [] => (s, [])
  | e :: rest =>
      let (s1, evs1) := loopStep e s
      let (s2, evs2) := runSteps rest s1
      (s2, evs1 ++ evs2)

/-! ## Bring-up: `setup()` -/

/-- What the hardware reports during `setup()`: whether `esp_camera_init`
returns `ESP_OK`, whether `SD_MMC.begin("/sdcard", true)` succeeds, whether
`SD_MMC.cardType() != CARD_NONE`, the `uint16_t` stored at `IC_ADDR` in the
EEPROM, and the value of `millis()` when `loop()` first initializes its
`static` `clickedMillis`. -/
structure SetupEnv where
  camOk : Bool
  sdMountOk : Bool
  cardPresent : Bool
  storedCtr : Nat
  bootMillis : Nat
deriving DecidableEq, Repr

/-- Observable milestones of `setup()` after the three fallible stages. -/
inductive SetupEv where
  | counterLoad (v : Nat) : SetupEv
  | shutterBegin : SetupEv
  | readyFlash : SetupEv
deriving DecidableEq, Repr

/-- Result of `setup()`: either a terminal diagnostic fault loop with the
given flash-count signature (the `while (true)` loops never return), or the
ready device state in which `loop()` starts running. -/
inductive SetupResult where
  | fault (sig : Nat) : SetupResult
  | ready (s : DeviceState) : SetupResult
deriving DecidableEq, Repr

/-- `setup()`: camera init, SD mount, card presence — each failure enters
an infinite diagnostic flash loop and nothing after it executes; on success
the counter is loaded from EEPROM, the shutter is started, and the ready
wave is flashed. -/
def setup (env : SetupEnv) : SetupResult × List SetupEv :=
  if ¬env.camOk then (SetupResult.fault CAMI_FLASH_COUNT, [])
  else if ¬env.sdMountOk then (SetupResult.fault SDMI_FLASH_COUNT, [])
  else if ¬env.cardPresent then (SetupResult.fault SDCI_FLASH_COUNT, [])
  else
    (SetupResult.ready
      { imageCtr := env.storedCtr % U16
        eeprom := env.storedCtr % U16
        clickedMillis := env.bootMillis
        files := []
        asleep := false },
     [SetupEv.counterLoad (env.storedCtr % U16), SetupEv.shutterBegin,
      SetupEv.readyFlash])

/-- One period of a diagnostic fault loop body:
`flashBuiltinLed(sig); delay(FAIL_MILLIS);`. -/
def faultLoopBody (sig : Nat) : List LedAction :=
  flashBuiltinLed sig FLASH_MILLIS ++ [LedAction.wait FAIL_MILLIS]

/-- The LED trace of the first `k` iterations of a diagnostic fault loop
(the loop itself is `while (true)`, so every finite prefix looks like
this). -/
def faultTrace (sig k : Nat) : List LedAction :=
  (List.range k).flatMap (fun _ => faultLoopBody sig)

/-- The flash pattern as the specification describes it: `count` times
(on for `len`, then off), with an inactive gap of `len` between consecutive
flashes and no gap after the final flash. -/
def flashSpecTrace (count len : Nat) : List LedAction :=
  match count with
  | 0 => []
  | n + 1 =>
      (List.replicate n
          [LedAction.ledOn, LedAction.wait len, LedAction.ledOff,
           LedAction.wait len]).flatten
        ++ [LedAction.ledOn, LedAction.wait len, LedAction.ledOff]

/-! ## Helper lemmas: decimal rendering is injective -/

theorem ofDecDigits_decDigitsRev (fuel : Nat) :
    ∀ n, n ≤ fuel → ofDecDigits (decDigitsRev fuel n) = n := by
  induction fuel with
  | zero => intro n hn; interval_cases n; rfl
  | succ fuel ih =>
      intro n hn
      by_cases h0 : n = 0
      · subst h0; simp [decDigitsRev, ofDecDigits]
      · have hlt : n / 10 < n :=
          Nat.div_lt_self (Nat.pos_of_ne_zero h0) (by omega)
        have hdiv : n / 10 ≤ fuel := by omega
        simp only [decDigitsRev, h0, if_false, ofDecDigits, ih _ hdiv]
        omega

theorem decDigitsRev_lt_ten (fuel : Nat) :
    ∀ n, ∀ d ∈ decDigitsRev fuel n, d < 10 := by
  induction fuel with
  | zero => intro n d hd; simp [decDigitsRev] at hd
  | succ fuel ih =>
      intro n d hd
      by_cases h0 : n = 0
      · subst h0; simp [decDigitsRev] at hd
      · simp only [decDigitsRev, h0, if_false, List.mem_cons] at hd
        rcases hd with h | h
        · omega
        · exact ih _ _ h

theorem digitChar_inj_lt :
    ∀ a < 10, ∀ b < 10, Nat.digitChar a = Nat.digitChar b → a = b := by
  decide

theorem map_digitChar_inj :
    ∀ l1 l2 : List Nat, (∀ d ∈ l1, d < 10) → (∀ d ∈ l2, d < 10) →
      l1.map Nat.digitChar = l2.map Nat.digitChar → l1 = l2 := by
  intro l1
  induction l1 with
  | nil => intro l2 _ _ h; cases l2 <;> simp_all
  | cons a l1 ih =>
      intro l2 h1 h2 h
      cases l2 with
      | nil => simp at h
      | cons b l2 =>
          simp only [List.map_cons, List.cons.injEq] at h
          have hab : a = b :=
            digitChar_inj_lt a (h1 a (by simp)) b (h2 b (by simp)) h.1
          have : l1 = l2 :=
            ih l2 (fun d hd => h1 d (by simp [hd]))
              (fun d hd => h2 d (by simp [hd])) h.2
          simp [hab, this]

theorem decimalStr_inj : ∀ m n : Nat, decimalStr m = decimalStr n → m = n := by
  have key : ∀ m n : Nat, m ≠ 0 → n ≠ 0 →
      decimalStr m = decimalStr n → m = n := by
    intro m n hm hn h
    simp only [decimalStr, hm, hn, if_false] at h
    have hmap : ((decDigitsRev m m).reverse).map Nat.digitChar =
        ((decDigitsRev n n).reverse).map Nat.digitChar := by
      have := congrArg String.data h
      simpa using this
    have hrev := map_digitChar_inj _ _
      (fun d hd => decDigitsRev_lt_ten m m d (List.mem_reverse.mp hd))
      (fun d hd => decDigitsRev_lt_ten n n d (List.mem_reverse.mp hd)) hmap
    have hdig : decDigitsRev m m = decDigitsRev n n :=
      List.reverse_injective hrev
    have := ofDecDigits_decDigitsRev m m (le_refl m)
    rw [hdig, ofDecDigits_decDigitsRev n n (le_refl n)] at this
    omega
  have zcase : ∀ n : Nat, n ≠ 0 → decimalStr 0 ≠ decimalStr n := by
    intro n hn h
    have h' : ("0" : String) =
        String.mk ((decDigitsRev n n).reverse.map Nat.digitChar) := by
      simpa [decimalStr, hn] using h
    have h0 : [(0 : Nat)].map Nat.digitChar =
        (decDigitsRev n n).reverse.map Nat.digitChar := by
      have := congrArg String.data h'
      simpa using this
    have hl : [(0 : Nat)] = (decDigitsRev n n).reverse :=
      map_digitChar_inj _ _ (by simp)
        (fun d hd => decDigitsRev_lt_ten n n d (List.mem_reverse.mp hd)) h0
    have hdig : decDigitsRev n n = [0] := by
      have := congrArg List.reverse hl
      simpa using this.symm
    have := ofDecDigits_decDigitsRev n n (le_refl n)
    rw [hdig] at this
    simp [ofDecDigits] at this
    omega
  intro m n h
  by_cases hm : m = 0 <;> by_cases hn : n = 0
  · omega
  · exact absurd (hm ▸ h) (zcase n hn)
  · exact absurd (hn ▸ h.symm) (zcase m hm)
  · exact key m n hm hn h

theorem string_data_inj : ∀ a b : String, a.data = b.data → a = b := by
  intro a b h; cases a; cases b; exact congrArg String.mk h

theorem imagePath_inj : ∀ m n : Nat, imagePath m = imagePath n → m = n := by
  intro m n h
  have hdat : ("/Image" ++ decimalStr m ++ ".jpg").data =
      ("/Image" ++ decimalStr n ++ ".jpg").data := congrArg String.data h
  simp only [String.data_append] at hdat
  have h1 := List.append_cancel_right hdat
  have h2 := List.append_cancel_left h1
  exact decimalStr_inj m n (string_data_inj _ _ h2)

/-! ## Helper lemmas: flash trace structure -/

theorem flashIter_full (c len i : Nat) (h : i + 1 < c) :
    flashIter c len i =
      [LedAction.ledOn, LedAction.wait len, LedAction.ledOff,
       LedAction.wait len] := by
  simp [flashIter, h]

theorem flashBuiltinLed_aux (len : Nat) :
    ∀ n c, (∀ i < n, i + 1 < c) →
      (List.range n).flatMap (flashIter c len) =
        (List.replicate n
          [LedAction.ledOn, LedAction.wait len, LedAction.ledOff,
           LedAction.wait len]).flatten := by
  intro n
  induction n with
  | zero => intro c _; simp
  | succ n ih =>
      intro c h
      rw [List.range_succ, List.flatMap_append,
        ih c (fun i hi => h i (by omega)),
        List.replicate_succ']
      simp [flashIter_full c len n (h n (by omega))]

theorem flashBuiltinLed_eq_spec (count len : Nat) :
    flashBuiltinLed count len = flashSpecTrace count len := by
  cases count with
  | zero => rfl
  | succ n =>
      rw [flashBuiltinLed, List.range_succ, List.flatMap_append,
        flashBuiltinLed_aux len n (n + 1) (fun i hi => by omega)]
      simp [flashSpecTrace, flashIter]

/-! ## Helper lemmas: `loopStep` projections -/

theorem loopStep_asleep (env : LoopEnv) (s : DeviceState)
    (h : s.asleep = true) : loopStep env s = (s, []) := by
  simp [loopStep, h]

theorem loopStep_imageCtr (env : LoopEnv) (s : DeviceState) :
    (loopStep env s).1.imageCtr =
      if s.asleep = false ∧ env.clicked = true ∧ env.fbAvail = true
      then (s.imageCtr + 1) % U16 else s.imageCtr := by
  by_cases hA : s.asleep <;>
    by_cases hc : env.clicked <;>
      by_cases hfb : env.fbAvail <;>
        by_cases hfo : env.fileOk <;>
          simp [loopStep, captureStep, hA, hc, hfb, hfo] <;>
            split <;> simp

theorem loopStep_eeprom (env : LoopEnv) (s : DeviceState) :
    (loopStep env s).1.eeprom =
      if s.asleep = false ∧ env.clicked = true ∧ env.fbAvail = true ∧
          env.fileOk = true
      then (s.imageCtr + 1) % U16 else s.eeprom := by
  by_cases hA : s.asleep <;>
    by_cases hc : env.clicked <;>
      by_cases hfb : env.fbAvail <;>
        by_cases hfo : env.fileOk <;>
          simp [loopStep, captureStep, hA, hc, hfb, hfo] <;>
            split <;> simp

theorem loopStep_files (env : LoopEnv) (s : DeviceState) :
    (loopStep env s).1.files =
      if s.asleep = false ∧ env.clicked = true ∧ env.fbAvail = true ∧
          env.fileOk = true
      then s.files ++ [imagePath ((s.imageCtr + 1) % U16)] else s.files := by
  by_cases hA : s.asleep <;>
    by_cases hc : env.clicked <;>
      by_cases hfb : env.fbAvail <;>
        by_cases hfo : env.fileOk <;>
          simp [loopStep, captureStep, hA, hc, hfb, hfo] <;>
            split <;> simp

theorem loopStep_clicked_fbFail (env : LoopEnv) (s : DeviceState)
    (hA : s.asleep = false) (hc : env.clicked = true)
    (hfb : env.fbAvail = false) :
    loopStep env s = ({ s with clickedMillis := env.tClick }, []) := by
  simp [loopStep, captureStep, hA, hc, hfb]

theorem loopStep_clicked_fileFail (env : LoopEnv) (s : DeviceState)
    (hA : s.asleep = false) (hc : env.clicked = true)
    (hfb : env.fbAvail = true) (hfo : env.fileOk = false) :
    loopStep env s =
      ({ s with imageCtr := (s.imageCtr + 1) % U16,
                clickedMillis := env.tClick }, [Ev.fbGet]) := by
  simp [loopStep, captureStep, hA, hc, hfb, hfo]

theorem runSteps_cons_fst (e : LoopEnv) (envs : List LoopEnv)
    (s : DeviceState) :
    (runSteps (e :: envs) s).1 = (runSteps envs (loopStep e s).1).1 := by
  simp [runSteps]

theorem loopStep_notClicked_sleep (env : LoopEnv) (s : DeviceState)
    (hA : s.asleep = false) (hc : env.clicked = false)
    (hgt : (env.tIdle - s.clickedMillis) % U32 > AWAKE_MILLIS) :
    loopStep env s =
      ({ s with asleep := true },
       [Ev.eepromEnd, Ev.flash WAVE_FLASH_COUNT, Ev.deepSleep]) := by
  simp [loopStep, hA, hc, hgt]

theorem loopStep_notClicked_noSleep (env : LoopEnv) (s : DeviceState)
    (hA : s.asleep = false) (hc : env.clicked = false)
    (hle : ¬ (env.tIdle - s.clickedMillis) % U32 > AWAKE_MILLIS) :
    loopStep env s = (s, []) := by
  simp [loopStep, hA, hc, hle]

theorem loopStep_success_sleep (env : LoopEnv) (s : DeviceState)
    (hA : s.asleep = false) (hc : env.clicked = true)
    (hfb : env.fbAvail = true) (hfo : env.fileOk = true)
    (hgt : (env.tIdle - env.tClick) % U32 > AWAKE_MILLIS) :
    loopStep env s =
      ({ imageCtr := (s.imageCtr + 1) % U16,
         eeprom := (s.imageCtr + 1) % U16,
         clickedMillis := env.tClick,
         files := s.files ++ [imagePath ((s.imageCtr + 1) % U16)],
         asleep := true },
       [Ev.fbGet, Ev.fileOpen (imagePath ((s.imageCtr + 1) % U16)),
        Ev.fileWrite env.fbLen, Ev.eepromWrite ((s.imageCtr + 1) % U16),
        Ev.eepromCommit, Ev.flash SNAP_FLASH_COUNT, Ev.fileClose,
        Ev.fbReturn] ++
       [Ev.eepromEnd, Ev.flash WAVE_FLASH_COUNT, Ev.deepSleep]) := by
  simp [loopStep, captureStep, hA, hc, hfb, hfo, hgt]

theorem loopStep_success_noSleep (env : LoopEnv) (s : DeviceState)
    (hA : s.asleep = false) (hc : env.clicked = true)
    (hfb : env.fbAvail = true) (hfo : env.fileOk = true)
    (hle : ¬ (env.tIdle - env.tClick) % U32 > AWAKE_MILLIS) :
    loopStep env s =
      ({ imageCtr := (s.imageCtr + 1) % U16,
         eeprom := (s.imageCtr + 1) % U16,
         clickedMillis := env.tClick,
         files := s.files ++ [imagePath ((s.imageCtr + 1) % U16)],
         asleep := false },
       [Ev.fbGet, Ev.fileOpen (imagePath ((s.imageCtr + 1) % U16)),
        Ev.fileWrite env.fbLen, Ev.eepromWrite ((s.imageCtr + 1) % U16),
        Ev.eepromCommit, Ev.flash SNAP_FLASH_COUNT, Ev.fileClose,
        Ev.fbReturn]) := by
  simp [loopStep, captureStep, hA, hc, hfb, hfo, hle]

theorem range_map_imagePath (C n : Nat) :
    (List.range (n + 1)).map (fun i => imagePath (C + 1 + i)) =
      imagePath (C + 1) ::
        (List.range n).map (fun i => imagePath (C + 2 + i)) := by
  rw [List.range_succ_eq_map, List.map_cons, List.map_map]
  have hfe : ((fun i => imagePath (C + 1 + i)) ∘ Nat.succ) =
      (fun i => imagePath (C + 2 + i)) :=
    funext fun i => congrArg imagePath (by omega)
  rw [hfe]

theorem range_map_imagePath_mod (C n : Nat) :
    (List.range (n + 1)).map (fun i => imagePath ((C + 1 + i) % U16)) =
      imagePath ((C + 1) % U16) ::
        (List.range n).map (fun i => imagePath ((C + 2 + i) % U16)) := by
  rw [List.range_succ_eq_map, List.map_cons, List.map_map]
  have hfe : ((fun i => imagePath ((C + 1 + i) % U16)) ∘ Nat.succ) =
      (fun i => imagePath ((C + 2 + i) % U16)) :=
    funext fun i => congrArg (fun x => imagePath (x % U16)) (by omega)
  rw [hfe]

theorem runSteps_success_files_mod (envs : List LoopEnv) :
    ∀ s : DeviceState, s.asleep = false →
      (∀ e ∈ envs, e.clicked = true ∧ e.fbAvail = true ∧ e.fileOk = true ∧
          (e.tIdle - e.tClick) % U32 ≤ AWAKE_MILLIS) →
      (runSteps envs s).1.files =
        s.files ++ (List.range envs.length).map
          (fun i => imagePath ((s.imageCtr + 1 + i) % U16)) := by
  induction envs with
  | nil => intro s _ _; simp [runSteps]
  | cons e rest ih =>
      intro s hA hall
      obtain ⟨hc, hfb, hfo, hns⟩ := hall e (List.mem_cons_self e rest)
      have hstep := loopStep_success_noSleep e s hA hc hfb hfo (by omega)
      rw [runSteps_cons_fst, hstep]
      rw [ih _ rfl (fun x hx => hall x (List.mem_cons_of_mem e hx))]
      have hshift :
          (fun i => imagePath (((s.imageCtr + 1) % U16 + 1 + i) % U16)) =
            (fun i => imagePath ((s.imageCtr + 2 + i) % U16)) :=
        funext fun i => congrArg imagePath (by simp only [U16]; omega)
      simp only [List.length_cons]
      rw [range_map_imagePath_mod s.imageCtr rest.length]
      simp [hshift, List.append_assoc]

theorem runSteps_success_files (envs : List LoopEnv) :
    ∀ s : DeviceState, s.asleep = false →
      (∀ e ∈ envs, e.clicked = true ∧ e.fbAvail = true ∧ e.fileOk = true ∧
          (e.tIdle - e.tClick) % U32 ≤ AWAKE_MILLIS) →
      s.imageCtr + envs.length < U16 →
      (runSteps envs s).1.files =
        s.files ++ (List.range envs.length).map
          (fun i => imagePath (s.imageCtr + 1 + i)) := by
  induction envs with
  | nil => intro s _ _ _; simp [runSteps]
  | cons e rest ih =>
      intro s hA hall hbound
      obtain ⟨hc, hfb, hfo, hns⟩ := hall e (List.mem_cons_self e rest)
      have hlt : s.imageCtr + 1 < U16 := by
        simp only [List.length_cons] at hbound; omega
      have hstep := loopStep_success_noSleep e s hA hc hfb hfo (by omega)
      rw [runSteps_cons_fst, hstep]
      have hbound2 : ((s.imageCtr + 1) % U16) + rest.length < U16 := by
        rw [Nat.mod_eq_of_lt hlt]
        simp only [List.length_cons] at hbound
        omega
      rw [ih _ rfl (fun x hx => hall x (List.mem_cons_of_mem e hx))
        (by simpa using hbound2)]
      simp only [List.length_cons, Nat.mod_eq_of_lt hlt]
      rw [range_map_imagePath s.imageCtr rest.length, List.append_assoc]
      rfl

/-! ## Claim theorems -/

/-- Claim C3 (counterexample).  The claimed invariants fail once the
`uint16_t` counter wraps.  From bring-up with stored counter 65535 (a
legitimate EEPROM content, first conjunct), one transaction failing at
file creation wraps the in-memory counter to 0 while the persisted
counter stays 65535 (second conjunct), so in-memory ≥ persisted is false
(third conjunct); and a successful transaction from that bring-up state
commits 0 after 65535, so the persisted sequence decreases (fourth and
fifth conjuncts). -/
theorem c3_counterexample :
    (setup ⟨true, true, true, 65535, 0⟩).1
        = SetupResult.ready ⟨65535, 65535, 0, [], false⟩ ∧
    (loopStep ⟨true, true, 100, false, 10, 11⟩
        ⟨65535, 65535, 0, [], false⟩).1
        = ⟨0, 65535, 10, [], false⟩ ∧
    ¬ (0 : Nat) ≥ 65535 ∧
    (loopStep ⟨true, true, 100, true, 20, 21⟩
        ⟨65535, 65535, 0, [], false⟩).1.eeprom = 0 ∧
    (0 : Nat) < 65535 := by
  decide

/-- Claim C3 (corrected).  As long as the counter does not wrap — i.e. the
in-memory counter plus the number of iterations that reach `++imageCtr`
(trigger seen and frame acquired) stays below 2^16 — every run preserves
in-memory ≥ persisted and never decreases the persisted counter.  Applied
to every prefix of a run from bring-up (where in-memory = persisted), this
gives the claimed invariant on all reachable states under the no-wrap
proviso. -/
theorem c3_monotone_no_wrap (envs : List LoopEnv) :
    ∀ s : DeviceState, s.eeprom ≤ s.imageCtr →
      s.imageCtr +
          envs.countP (fun e => e.clicked && e.fbAvail) < U16 →
      (runSteps envs s).1.eeprom ≤ (runSteps envs s).1.imageCtr ∧
      s.eeprom ≤ (runSteps envs s).1.eeprom := by
  induction envs with
  | nil => intro s hinv _; exact ⟨hinv, le_refl _⟩
  | cons e rest ih =>
      intro s hinv hbound
      rw [runSteps_cons_fst]
      have hctr := loopStep_imageCtr e s
      have heep := loopStep_eeprom e s
      rw [List.countP_cons] at hbound
      by_cases hP : s.asleep = false ∧ e.clicked = true ∧ e.fbAvail = true
      · have hp1 : (e.clicked && e.fbAvail) = true := by
          rw [hP.2.1, hP.2.2]; rfl
        rw [hp1] at hbound
        norm_num at hbound
        have hlt : s.imageCtr + 1 < U16 := by omega
        rw [if_pos hP, Nat.mod_eq_of_lt hlt] at hctr
        have heep' : (loopStep e s).1.eeprom = s.imageCtr + 1 ∨
            (loopStep e s).1.eeprom = s.eeprom := by
          by_cases hfo : e.fileOk = true
          · left; rw [heep, if_pos ⟨hP.1, hP.2.1, hP.2.2, hfo⟩,
              Nat.mod_eq_of_lt hlt]
          · right; rw [heep, if_neg (by tauto)]
        have hinv1 : (loopStep e s).1.eeprom ≤ (loopStep e s).1.imageCtr := by
          rcases heep' with h | h <;> omega
        have hbound1 : (loopStep e s).1.imageCtr +
            List.countP (fun e => e.clicked && e.fbAvail) rest < U16 := by
          omega
        have ihres := ih (loopStep e s).1 hinv1 hbound1
        have hmid : s.eeprom ≤ (loopStep e s).1.eeprom := by
          rcases heep' with h | h <;> omega
        exact ⟨ihres.1, le_trans hmid ihres.2⟩
      · rw [if_neg hP] at hctr
        have heep2 : (loopStep e s).1.eeprom = s.eeprom := by
          rw [heep, if_neg (by tauto)]
        have hbound1 : (loopStep e s).1.imageCtr +
            List.countP (fun e => e.clicked && e.fbAvail) rest < U16 := by
          split at hbound <;> omega
        have ihres := ih (loopStep e s).1 (by omega) hbound1
        have hmid : s.eeprom ≤ (loopStep e s).1.eeprom := by omega
        exact ⟨ihres.1, le_trans hmid ihres.2⟩

/-- Witness for C3's amended statement at a concrete input. -/
theorem c3_witness :
    (runSteps [⟨true, true, 100, true, 20, 21⟩]
        ⟨5, 5, 0, [], false⟩).1.eeprom ≤
      (runSteps [⟨true, true, 100, true, 20, 21⟩]
        ⟨5, 5, 0, [], false⟩).1.imageCtr ∧
    (5 : Nat) ≤ (runSteps [⟨true, true, 100, true, 20, 21⟩]
        ⟨5, 5, 0, [], false⟩).1.eeprom :=
  c3_monotone_no_wrap [⟨true, true, 100, true, 20, 21⟩]
    ⟨5, 5, 0, [], false⟩ (by decide) (by decide)

/-- Claim C4 (counterexample).  Two parts of the claim fail on the code.
Naming: with starting counter C = 65535 (in-memory = persisted) a run of
N = 1 successful Capture Transactions creates `/Image0.jpg` — the
`uint16_t` counter wraps — and not `/Image65536.jpg` as the claim's
Image(C+1) naming predicts (first two conjuncts).  Overwriting: from a
starting state with counter C = 5 whose card already holds `/Image6.jpg`
(e.g. left by a session that lost power between the file write and the
counter commit, spec §4.3, or after the counter reset provided at
main.cpp:224-226), the single successful transaction opens that very path
with `FILE_WRITE` — the created path is a member of the pre-existing
files, so an existing file is overwritten (last two conjuncts). -/
theorem c4_counterexample :
    (loopStep ⟨true, true, 100, true, 20, 21⟩
        ⟨65535, 65535, 0, [], false⟩).1.files = ["/Image0.jpg"] ∧
    ("/Image0.jpg" : String) ≠ "/Image65536.jpg" ∧
    Ev.fileOpen "/Image6.jpg" ∈
      (loopStep ⟨true, true, 100, true, 20, 21⟩
        ⟨5, 5, 0, ["/Image6.jpg"], false⟩).2 ∧
    ("/Image6.jpg" : String) ∈
      (⟨5, 5, 0, ["/Image6.jpg"], false⟩ : DeviceState).files := by
  decide

/-- Claim C4 (corrected).  A run of N consecutive successful Capture
Transactions from a state with in-memory = persisted = C creates exactly
the files `Image((C+1) mod 2^16).jpg … Image((C+N) mod 2^16).jpg`, in that
order — for every C and N, wrap included (first conjunct, unconditional).
Provided C + N ≤ 65535 (no wrap), these are exactly
Image(C+1).jpg … Image(C+N).jpg, pairwise distinct (second conjunct).  The
original "no existing file is ever overwritten" is false in general (see
the counterexample's pre-existing `/Image6.jpg`); it holds under no wrap
whenever every file already present is numbered at most C — in particular
on an empty card (third conjunct). -/
theorem c4_success_run_filenames (envs : List LoopEnv) (s : DeviceState)
    (hA : s.asleep = false) (hCE : s.imageCtr = s.eeprom)
    (hall : ∀ e ∈ envs, e.clicked = true ∧ e.fbAvail = true ∧
        e.fileOk = true ∧ (e.tIdle - e.tClick) % U32 ≤ AWAKE_MILLIS) :
    (runSteps envs s).1.files =
      s.files ++ (List.range envs.length).map
        (fun i => imagePath ((s.eeprom + 1 + i) % U16)) ∧
    (s.eeprom + envs.length < U16 →
      (runSteps envs s).1.files =
        s.files ++ (List.range envs.length).map
          (fun i => imagePath (s.eeprom + 1 + i)) ∧
      ((List.range envs.length).map
          (fun i => imagePath (s.eeprom + 1 + i))).Nodup) ∧
    (s.eeprom + envs.length < U16 →
      (∀ p ∈ s.files, ∃ k ≤ s.eeprom, p = imagePath k) →
      ∀ p ∈ (List.range envs.length).map
          (fun i => imagePath (s.eeprom + 1 + i)), p ∉ s.files) := by
  refine ⟨?_, fun hbound => ⟨?_, ?_⟩, fun hbound hold => ?_⟩
  · have h := runSteps_success_files_mod envs s hA hall
    rwa [hCE] at h
  · have h := runSteps_success_files envs s hA hall (by omega)
    rwa [hCE] at h
  · have hinj : Function.Injective
        (fun i => imagePath (s.eeprom + 1 + i)) := by
      intro a b h
      have := imagePath_inj _ _ h
      omega
    exact (List.nodup_range envs.length).map hinj
  · intro p hp hmem
    simp only [List.mem_map, List.mem_range] at hp
    obtain ⟨i, _, rfl⟩ := hp
    obtain ⟨k, hk, hpk⟩ := hold _ hmem
    have := imagePath_inj _ _ hpk.symm
    omega

/-- Witness for C4's amended statement at a concrete input: two successful
captures from counter 0 produce `/Image1.jpg` then `/Image2.jpg`, modular
and plain namings agreeing, distinct, and colliding with nothing on the
empty card. -/
theorem c4_witness :
    (runSteps
        [⟨true, true, 100, true, 20, 21⟩, ⟨true, true, 100, true, 30, 31⟩]
        ⟨0, 0, 0, [], false⟩).1.files =
      [] ++ (List.range 2).map (fun i => imagePath ((0 + 1 + i) % U16)) ∧
    (runSteps
        [⟨true, true, 100, true, 20, 21⟩, ⟨true, true, 100, true, 30, 31⟩]
        ⟨0, 0, 0, [], false⟩).1.files =
      [] ++ (List.range 2).map (fun i => imagePath (0 + 1 + i)) ∧
    ((List.range 2).map (fun i => imagePath (0 + 1 + i))).Nodup ∧
    ∀ p ∈ (List.range 2).map (fun i => imagePath (0 + 1 + i)),
      p ∉ ([] : List String) := by
  have h := c4_success_run_filenames
    [⟨true, true, 100, true, 20, 21⟩, ⟨true, true, 100, true, 30, 31⟩]
    ⟨0, 0, 0, [], false⟩ rfl rfl (by decide)
  exact ⟨h.1, (h.2.1 (by decide)).1, (h.2.1 (by decide)).2,
    h.2.2 (by decide) (by simp)⟩

/-- Claim C7 (confirmed).  Bring-up is fail-fast and strictly ordered: a
camera-init failure yields the terminal fault result with signature
`CAMI_FLASH_COUNT = 2` (whatever the later stages would have reported), an
SD-mount failure signature 3, absent media signature 4; in each fault case
the `SetupEv` trace is empty — the counter is never loaded, the trigger
never started, the ready wave never flashed — and the result is
`SetupResult.fault`, a state that never hands control to the Main Cycle.
Every finite prefix of a fault loop is groups of exactly `sig` flashes
separated by a fixed `FAIL_MILLIS = 1000` ms pause. -/
theorem c7_bringup_fail_fast :
    (∀ env : SetupEnv, env.camOk = false →
        setup env = (SetupResult.fault CAMI_FLASH_COUNT, [])) ∧
    (∀ env : SetupEnv, env.camOk = true → env.sdMountOk = false →
        setup env = (SetupResult.fault SDMI_FLASH_COUNT, [])) ∧
    (∀ env : SetupEnv, env.camOk = true → env.sdMountOk = true →
        env.cardPresent = false →
        setup env = (SetupResult.fault SDCI_FLASH_COUNT, [])) ∧
    CAMI_FLASH_COUNT = 2 ∧ SDMI_FLASH_COUNT = 3 ∧ SDCI_FLASH_COUNT = 4 ∧
    FAIL_MILLIS = 1000 ∧
    (∀ sig, ∀ s : DeviceState,
        (SetupResult.fault sig : SetupResult) ≠ SetupResult.ready s) ∧
    (∀ sig k, faultTrace sig k =
        (List.replicate k (flashSpecTrace sig FLASH_MILLIS ++
          [LedAction.wait FAIL_MILLIS])).flatten) := by
  refine ⟨?_, ?_, ?_, rfl, rfl, rfl, rfl, ?_, ?_⟩
  · intro env h; simp [setup, h]
  · intro env h1 h2; simp [setup, h1, h2]
  · intro env h1 h2 h3; simp [setup, h1, h2, h3]
  · intro sig s h; exact SetupResult.noConfusion h
  · intro sig k
    induction k with
    | zero => rfl
    | succ k ih =>
        rw [faultTrace, List.range_succ, List.flatMap_append,
          show (List.range k).flatMap (fun _ => faultLoopBody sig)
            = faultTrace sig k from rfl,
          ih, List.replicate_succ', List.flatten_append]
        simp [faultLoopBody, flashBuiltinLed_eq_spec]

/-- Witness for C7 at a concrete input: camera init fails, so setup is the
terminal 2-flash fault loop with no later stage executed. -/
theorem c7_witness :
    setup ⟨false, true, true, 0, 0⟩ = (SetupResult.fault 2, []) :=
  c7_bringup_fail_fast.1 ⟨false, true, true, 0, 0⟩ rfl

/-- Claim C8 (confirmed).  In every Main Cycle iteration that reaches the
idle computation (iterations whose Capture Transaction fails return early
and do not reach it — but they have just reset the idle clock), if the
elapsed `millis()` time since the last trigger activation exceeds
`AWAKE_MILLIS` (five minutes, 300000 ms), the iteration's trace ends with
exactly `EEPROM.end()`, the default `WAVE_FLASH_COUNT = 5` flash wave, and
`esp_deep_sleep_start()`, and the device is asleep — a state from which
`loopStep` never does anything again (last conjunct: control never returns
to software).  Below the threshold the device stays awake, and any trigger
activation resets the idle clock to the activation time. -/
theorem c8_idle_timeout (env : LoopEnv) (s : DeviceState)
    (hA : s.asleep = false)
    (hnoret : env.clicked = true → env.fbAvail = true ∧ env.fileOk = true) :
    ((env.tIdle -
        (if env.clicked = true then env.tClick else s.clickedMillis)) % U32
          > AWAKE_MILLIS →
      (loopStep env s).1.asleep = true ∧
      ∃ pre, (loopStep env s).2 =
        pre ++ [Ev.eepromEnd, Ev.flash WAVE_FLASH_COUNT, Ev.deepSleep]) ∧
    ((env.tIdle -
        (if env.clicked = true then env.tClick else s.clickedMillis)) % U32
          ≤ AWAKE_MILLIS →
      (loopStep env s).1.asleep = false ∧
      Ev.deepSleep ∉ (loopStep env s).2) ∧
    (env.clicked = true → (loopStep env s).1.clickedMillis = env.tClick) ∧
    AWAKE_MILLIS = 300000 ∧ WAVE_FLASH_COUNT = 5 ∧
    (∀ e2 : LoopEnv, ∀ s2 : DeviceState, s2.asleep = true →
      loopStep e2 s2 = (s2, [])) := by
  by_cases hc : env.clicked = true
  · obtain ⟨hfb, hfo⟩ := hnoret hc
    rw [if_pos hc]
    by_cases hgt : (env.tIdle - env.tClick) % U32 > AWAKE_MILLIS
    · rw [loopStep_success_sleep env s hA hc hfb hfo hgt]
      exact ⟨fun _ => ⟨rfl, _, rfl⟩, fun hle => absurd hgt (by omega),
        fun _ => rfl, rfl, rfl, loopStep_asleep⟩
    · rw [loopStep_success_noSleep env s hA hc hfb hfo hgt]
      refine ⟨fun h => absurd h hgt, fun _ => ⟨rfl, by simp⟩,
        fun _ => rfl, rfl, rfl, loopStep_asleep⟩
  · have hc' : env.clicked = false := by
      cases henv : env.clicked
      · rfl
      · exact absurd henv hc
    rw [if_neg hc]
    by_cases hgt : (env.tIdle - s.clickedMillis) % U32 > AWAKE_MILLIS
    · rw [loopStep_notClicked_sleep env s hA hc' hgt]
      exact ⟨fun _ => ⟨rfl, [], rfl⟩, fun hle => absurd hgt (by omega),
        fun h => absurd h hc, rfl, rfl, loopStep_asleep⟩
    · rw [loopStep_notClicked_noSleep env s hA hc' hgt]
      refine ⟨fun h => absurd h hgt, fun _ => ⟨hA, by simp⟩,
        fun h => absurd h hc, rfl, rfl, loopStep_asleep⟩

/-- Witness for C8 at a concrete input: no activation for 400000 ms >
300000 ms, so the device shuts the EEPROM, waves 5 flashes, and halts. -/
theorem c8_witness :
    (loopStep ⟨false, false, 0, false, 0, 400000⟩
        ⟨5, 5, 0, [], false⟩).1.asleep = true ∧
    ∃ pre, (loopStep ⟨false, false, 0, false, 0, 400000⟩
        ⟨5, 5, 0, [], false⟩).2 =
      pre ++ [Ev.eepromEnd, Ev.flash WAVE_FLASH_COUNT, Ev.deepSleep] :=
  (c8_idle_timeout ⟨false, false, 0, false, 0, 400000⟩
      ⟨5, 5, 0, [], false⟩ rfl (by decide)).1 (by decide)

/-- Claim C5 (confirmed).  In a Capture Transaction where frame acquisition
returns null (`!fb`), the iteration returns having created no file,
changed neither the in-memory nor the persisted counter, emitted no event
at all (in particular no indicator flash), and left the device awake, so
the Main Cycle keeps running. -/
theorem c5_acquisition_failure_no_side_effects
    (env : LoopEnv) (s : DeviceState) (hA : s.asleep = false)
    (hc : env.clicked = true) (hfb : env.fbAvail = false) :
    (loopStep env s).1.imageCtr = s.imageCtr ∧
    (loopStep env s).1.eeprom = s.eeprom ∧
    (loopStep env s).1.files = s.files ∧
    (loopStep env s).2 = [] ∧
    (loopStep env s).1.asleep = false := by
  rw [loopStep_clicked_fbFail env s hA hc hfb]
  exact ⟨rfl, rfl, rfl, rfl, hA⟩

/-- Witness for C5 at a concrete input. -/
theorem c5_witness :
    (loopStep ⟨true, false, 0, true, 30, 31⟩ ⟨9, 9, 0, [], false⟩).1.imageCtr
        = 9 ∧
    (loopStep ⟨true, false, 0, true, 30, 31⟩ ⟨9, 9, 0, [], false⟩).1.eeprom
        = 9 ∧
    (loopStep ⟨true, false, 0, true, 30, 31⟩ ⟨9, 9, 0, [], false⟩).1.files
        = [] ∧
    (loopStep ⟨true, false, 0, true, 30, 31⟩ ⟨9, 9, 0, [], false⟩).2 = [] ∧
    (loopStep ⟨true, false, 0, true, 30, 31⟩ ⟨9, 9, 0, [], false⟩).1.asleep
        = false :=
  c5_acquisition_failure_no_side_effects
    ⟨true, false, 0, true, 30, 31⟩ ⟨9, 9, 0, [], false⟩ rfl rfl rfl

/-- Claim C6 (confirmed).  In a Capture Transaction where acquisition
succeeds but file creation fails, the persisted counter is unchanged (the
trace holds no EEPROM write or commit), the in-memory `uint16_t` counter
keeps its post-increment value `(old + 1) % 2^16` (not rolled back; the
increment wraps at 65535, see C10), no file is recorded, and no
success flash (or any flash) is emitted. -/
theorem c6_file_creation_failure
    (env : LoopEnv) (s : DeviceState) (hA : s.asleep = false)
    (hc : env.clicked = true) (hfb : env.fbAvail = true)
    (hfo : env.fileOk = false) :
    (loopStep env s).1.eeprom = s.eeprom ∧
    (loopStep env s).1.imageCtr = (s.imageCtr + 1) % U16 ∧
    (loopStep env s).1.files = s.files ∧
    (loopStep env s).2 = [Ev.fbGet] ∧
    Ev.eepromCommit ∉ (loopStep env s).2 ∧
    Ev.eepromWrite ((s.imageCtr + 1) % U16) ∉ (loopStep env s).2 ∧
    Ev.flash SNAP_FLASH_COUNT ∉ (loopStep env s).2 := by
  rw [loopStep_clicked_fileFail env s hA hc hfb hfo]
  refine ⟨rfl, rfl, rfl, rfl, ?_, ?_, ?_⟩ <;> simp

/-- Witness for C6 at a concrete input. -/
theorem c6_witness :
    (loopStep ⟨true, true, 50, false, 40, 41⟩ ⟨9, 9, 0, [], false⟩).1.eeprom
        = 9 ∧
    (loopStep ⟨true, true, 50, false, 40, 41⟩ ⟨9, 9, 0, [], false⟩).1.imageCtr
        = 10 := by
  have h := c6_file_creation_failure
    ⟨true, true, 50, false, 40, 41⟩ ⟨9, 9, 0, [], false⟩ rfl rfl rfl rfl
  exact ⟨h.1, h.2.1⟩

/-- Claim C9 (confirmed).  `flashBuiltinLed(count, len)` drives the
(active-low) LED on for `len` ms then off, exactly `count` times, with an
inter-flash off gap of `len` ms between consecutive flashes and none after
the final flash (`flashSpecTrace` is that pattern verbatim); both
parameters are `uint8_t`, and the defaulted call flashes
`WAVE_FLASH_COUNT = 5` times. -/
theorem c9_flash_contract :
    (∀ count len, count < 256 → len < 256 →
        flashBuiltinLed count len = flashSpecTrace count len) ∧
    WAVE_FLASH_COUNT = 5 ∧
    flashBuiltinLedDefault = flashSpecTrace 5 FLASH_MILLIS := by
  refine ⟨fun count len _ _ => flashBuiltinLed_eq_spec count len, rfl, ?_⟩
  exact flashBuiltinLed_eq_spec 5 FLASH_MILLIS

/-- Witness for C9 at a concrete input. -/
theorem c9_witness : flashBuiltinLed 3 7 = flashSpecTrace 3 7 :=
  c9_flash_contract.1 3 7 (by decide) (by decide)

/-- Claim C10 (confirmed).  The image counter is a `uint16_t`: when the
in-memory counter is 65535 as a Capture Transaction reaches `++imageCtr`,
it wraps to 0, the file is created at path `/Image0.jpg`, and 0 is the
value persisted and committed. -/
theorem c10_counter_wraparound
    (env : LoopEnv) (s : DeviceState) (hA : s.asleep = false)
    (hctr : s.imageCtr = 65535) (hc : env.clicked = true)
    (hfb : env.fbAvail = true) (hfo : env.fileOk = true) :
    (loopStep env s).1.imageCtr = 0 ∧
    (loopStep env s).1.eeprom = 0 ∧
    (loopStep env s).1.files = s.files ++ ["/Image0.jpg"] := by
  have h1 := loopStep_imageCtr env s
  have h2 := loopStep_eeprom env s
  have h3 := loopStep_files env s
  rw [if_pos ⟨hA, hc, hfb⟩] at h1
  rw [if_pos ⟨hA, hc, hfb, hfo⟩] at h2
  rw [if_pos ⟨hA, hc, hfb, hfo⟩] at h3
  rw [hctr] at h1 h2 h3
  refine ⟨by simpa using h1, by simpa using h2, ?_⟩
  rw [h3]
  have : imagePath ((65535 + 1) % U16) = "/Image0.jpg" := by decide
  rw [this]

/-- Claim C1 (counterexample).  The claim "persisted counter after commit =
persisted counter before the transaction + 1" fails on the code: from a
clean state with in-memory = persisted = 5, a transaction that fails at
file creation leaves in-memory 6 / persisted 5 (first conjunct, showing
the state is reachable), and the next fully successful transaction then
commits 7, not 5 + 1 = 6 (second conjunct). -/
theorem c1_counterexample :
    (loopStep ⟨true, true, 100, false, 10, 11⟩ ⟨5, 5, 0, [], false⟩).1
        = ⟨6, 5, 10, [], false⟩ ∧
    (loopStep ⟨true, true, 100, true, 20, 21⟩ ⟨6, 5, 10, [], false⟩).1.eeprom
        = 7 ∧
    (7 : Nat) ≠ 5 + 1 := by
  decide

/-- Claim C1 (corrected).  The value a successful Capture Transaction
persists and commits is the *in-memory* counter at the start of the
transaction plus one (as a `uint16_t`, i.e. mod 2^16).  When the
transaction starts with the in-memory counter equal to the persisted
counter (no failed transaction since the last commit) and no wrap occurs,
that equals the persisted counter before the transaction plus 1, as the
original claim stated. -/
theorem c1_commit_increments_counter
    (env : LoopEnv) (s : DeviceState) (hA : s.asleep = false)
    (hc : env.clicked = true) (hfb : env.fbAvail = true)
    (hfo : env.fileOk = true) :
    (loopStep env s).1.eeprom = (s.imageCtr + 1) % U16 ∧
    (s.imageCtr = s.eeprom → s.eeprom + 1 < U16 →
      (loopStep env s).1.eeprom = s.eeprom + 1) := by
  have h := loopStep_eeprom env s
  rw [if_pos ⟨hA, hc, hfb, hfo⟩] at h
  refine ⟨h, fun hmem hlt => ?_⟩
  rw [h, hmem, Nat.mod_eq_of_lt hlt]

/-- Witness for C1's amended statement at a concrete input. -/
theorem c1_witness :
    (loopStep ⟨true, true, 100, true, 20, 21⟩ ⟨5, 5, 0, [], false⟩).1.eeprom
        = 5 + 1 :=
  (c1_commit_increments_counter ⟨true, true, 100, true, 20, 21⟩
      ⟨5, 5, 0, [], false⟩ rfl rfl rfl rfl).2 rfl (by decide)

/-- Claim C2 (code bug, evaluated at the failing input).  When frame
acquisition succeeds but file creation fails, `loop()` executes `return`
without calling `esp_camera_fb_return(fb)`: the acquired frame (the
`fbGet` event) is never returned to the driver on that path — its trace
holds no `fbReturn` at all, rather than exactly one.  (For contrast, the
fully successful path does return the frame exactly once, third
conjunct.) -/
theorem c2_frame_leak_on_file_creation_failure :
    Ev.fbGet ∈
      (loopStep ⟨true, true, 100, false, 10, 11⟩ ⟨5, 5, 0, [], false⟩).2 ∧
    Ev.fbReturn ∉
      (loopStep ⟨true, true, 100, false, 10, 11⟩ ⟨5, 5, 0, [], false⟩).2 ∧
    ((loopStep ⟨true, true, 100, true, 20, 21⟩
        ⟨5, 5, 0, [], false⟩).2.count Ev.fbReturn) = 1 := by
  decide

/-- Witness for C10 at a concrete input. -/
theorem c10_witness :
    (loopStep ⟨true, true, 50, true, 60, 61⟩
        ⟨65535, 65535, 0, [], false⟩).1.imageCtr = 0 ∧
    (loopStep ⟨true, true, 50, true, 60, 61⟩
        ⟨65535, 65535, 0, [], false⟩).1.eeprom = 0 ∧
    (loopStep ⟨true, true, 50, true, 60, 61⟩
        ⟨65535, 65535, 0, [], false⟩).1.files = [] ++ ["/Image0.jpg"] :=
  c10_counter_wraparound ⟨true, true, 50, true, 60, 61⟩
    ⟨65535, 65535, 0, [], false⟩ rfl rfl rfl rfl rfl

end PinholeCam
